import Mathlib

set_option autoImplicit false
set_option linter.unusedVariables false

/-
Formal model of django_mongodb_engine/base.py (repository aparo/mongodb-engine).

The Python module is embedded shallowly:
- Python values crossing the adapter boundary become the inductive type
  DBValue; settings dictionaries become association lists over PyV.
- Python exceptions become the PyExc error type threaded through Except.
- External collaborators that are not part of src/ (the pymongo ObjectId
  constructor, the djangotoolbox base converter, the safe_call decorator
  from this repository`s utils.py, the NOT_PROVIDED sentinel) are modelled
  from the specification; each such definition carries a doc comment
  saying so.  Everything else is translated line by line from base.py.
-/

universe u

/-- Python scalar and dictionary values as they appear in the settings
dictionaries (OPTIONS, OPERATIONS) consumed by DatabaseWrapper._connect. -/
inductive PyV where
  | pynone
  | pybool (b : Bool)
  | pyint (n : Int)
  | pystr (s : String)
  | pydict (entries : List (String × PyV))
deriving Repr

/-- Python "d.pop(k)" on an association-list dictionary: removes the first
entry carrying the key and returns its value together with the remaining
dictionary.  Returns none (Python would raise KeyError) when absent. -/
def dict_pop {α : Type u} : List (String × α) → String → Option α × List (String × α)
  | [], _ => (none, [])
  | (k0, v0) :: rest, k =>
    if k0 = k then (some v0, rest)
    else
      let r := dict_pop rest k
      (r.1, (k0, v0) :: r.2)

/-- Python "d[k] = v": overwrites the entry in place when the key is
present, otherwise appends a new entry at the end. -/
def dict_set {α : Type u} : List (String × α) → String → α → List (String × α)
  | [], k, v => [(k, v)]
  | (k0, v0) :: rest, k, v =>
    if k0 = k then (k, v) :: rest else (k0, v0) :: dict_set rest k v

/-- Python "str.lower" on a single character, modelled for the ASCII
range used by configuration keys: uppercase A-Z maps 32 code points up,
everything else is unchanged. -/
def py_lower_char (c : Char) : Char :=
  if 65 ≤ c.toNat ∧ c.toNat ≤ 90 then Char.ofNat (c.toNat + 32) else c

/-- Python "str.lower" (ASCII model), character by character. -/
def py_lower (s : String) : String := ⟨s.data.map py_lower_char⟩

/-- Python "s.startswith(p)". -/
def py_startswith (s p : String) : Bool := p.data.isPrefixOf s.data

/-- Values crossing the value_for_db / value_from_db boundary.  pynone is
the Python None singleton; notProvided is the mapper`s NOT_PROVIDED
sentinel (modelled from the spec: a distinct singleton marker object);
objectId is the driver`s identifier holding its canonical 24-digit
lowercase hexadecimal text; lazyModelInstance stands for the serializer
wrapper type whose equality comparison performs a database query. -/
inductive DBValue where
  | pynone
  | notProvided
  | str (s : String)
  | objectId (hex : String)
  | pydate (year month day : Nat)
  | pytime (hour minute second microsecond : Nat)
  | pydatetime (year month day hour minute second microsecond : Nat)
  | pylist (xs : List DBValue)
  | pytuple (xs : List DBValue)
  | pyset (xs : List DBValue)
  | lazyModelInstance (pk : String)
deriving Repr

/-- The _meta options object of a Django model; only db_table is read by
base.py (line 109). -/
structure ModelMeta where
  db_table : String
deriving Repr, DecidableEq

/-- A Django model class, as far as base.py reads it. -/
structure Model where
  _meta : ModelMeta
deriving Repr, DecidableEq

/-- A Django field descriptor, as far as base.py reads it. -/
structure DjangoField where
  model : Model
deriving Repr, DecidableEq

/-- Python exceptions that can cross the coercion boundary. -/
inductive PyExc where
  | invalidId (msg : String)
  | typeError (msg : String)
  | attributeError (msg : String)
  | databaseError (msg : String)
  | assertionError
deriving Repr, DecidableEq

/-- The text carried by an exception. -/
def PyExc.message : PyExc → String
  | .invalidId m => m
  | .typeError m => m
  | .attributeError m => m
  | .databaseError m => m
  | .assertionError => "AssertionError"

/-- Discriminator for the identifier-validation error kind. -/
def PyExc.isInvalidId : PyExc → Bool
  | .invalidId _ => true
  | _ => false

/-- Modelled from the spec (sections 4.3 and 7): safe_call, the uniform
fault-translation boundary defined in django_mongodb_engine/utils.py
(a repository file that is not under src/).  Any exception raised by the
underlying store driver during the wrapped operation is caught and
re-raised as the single adapter-level database error kind; identifier
validation errors (InvalidId) propagate unchanged; an adapter-level
database error is already of the target kind and passes through. -/
def safe_call {α : Type u} (r : Except PyExc α) : Except PyExc α :=
  match r with
  | .error (.invalidId m) => .error (.invalidId m)
  | .error (.databaseError m) => .error (.databaseError m)
  | .error e => .error (.databaseError e.message)
  | .ok a => .ok a

/-- Single-quote character, written numerically so that the development
never spells a bare quote inside a string literal. -/
def squote : Char := Char.ofNat 39

/-- Double-quote character. -/
def dquote : Char := Char.ofNat 34

/-- Backslash character. -/
def bslash : Char := Char.ofNat 92

/-- Lowercase hexadecimal digit for an escape code. -/
def hexDigitChar (n : Nat) : Char :=
  if n < 10 then Char.ofNat (48 + n) else Char.ofNat (87 + n)

/-- Escaping of one character inside a Python 2 unicode repr, for the
chosen quote character: backslash and the quote are backslash-escaped,
newline, carriage return and tab print as two-character escapes, other
control characters print as backslash-x hex escapes, everything else is
unchanged (ASCII model of the CPython 2 unicode repr). -/
def pyReprEscape (q : Char) (c : Char) : List Char :=
  if c = bslash then [bslash, bslash]
  else if c = q then [bslash, q]
  else if c = Char.ofNat 10 then [bslash, Char.ofNat 110]
  else if c = Char.ofNat 13 then [bslash, Char.ofNat 114]
  else if c = Char.ofNat 9 then [bslash, Char.ofNat 116]
  else if c.toNat < 32 ∨ c.toNat = 127 then
    [bslash, Char.ofNat 120, hexDigitChar (c.toNat / 16), hexDigitChar (c.toNat % 16)]
  else [c]

/-- Quote character CPython 2 repr picks for a string: a single quote,
unless the string holds a single quote and no double quote. -/
def pyReprQuote (s : String) : Char :=
  if s.data.contains squote ∧ ¬ s.data.contains dquote then dquote else squote

/-- Python 2 "%r" formatting of a unicode string: the letter u, the
chosen quote, the escaped characters, the closing quote. -/
def pyRepr (s : String) : String :=
  let q := pyReprQuote s
  ⟨(Char.ofNat 117) :: q :: (s.data.foldr (fun c acc => pyReprEscape q c ++ acc) [q])⟩

/-- Boolean substring test on character lists. -/
def charsContain (hay needle : List Char) : Bool :=
  (List.range (hay.length + 1)).any fun i => needle.isPrefixOf (hay.drop i)

/-- Boolean substring test on strings. -/
def strContains (hay needle : String) : Bool := charsContain hay.data needle.data

/-- Hexadecimal digit as Python`s int(c, 16) accepts it in an ObjectId
literal: the canonical form is lowercase. -/
def is_hex_char (c : Char) : Bool :=
  decide ((48 ≤ c.toNat ∧ c.toNat ≤ 57) ∨ (97 ≤ c.toNat ∧ c.toNat ≤ 102))

/-- Modelled from the spec (section 3 Identifier, section 4.1): a validly
formatted identifier string is the canonical textual form of the store`s
compact binary identifier, 24 lowercase hexadecimal digits. -/
def is_valid_object_id_string (s : String) : Bool :=
  s.length == 24 && s.data.all is_hex_char

/-- Modelled from the spec (driver boundary, sections 3 and 4.1): the
pymongo ObjectId constructor.  It succeeds exactly on validly formatted
identifier strings (the Identifier is "constructed only from a validly
formatted string source value"), is idempotent on identifiers, and
rejects values of any other type; the inverse rendering (see pyUnicode)
is total and lossless. -/
def ObjectId : DBValue → Except PyExc DBValue
  | .str s =>
      if is_valid_object_id_string s then .ok (.objectId s)
      else .error (.invalidId (s ++ " is not a valid ObjectId"))
  | .objectId h => .ok (.objectId h)
  | _ => .error (.typeError "id must be an instance of (str, unicode, ObjectId)")

/-- Python unicode() as applied on line 131 of base.py: an identifier
renders as its 24-digit hexadecimal string (spec section 4.1:
fromIdentifier is total and never fails), a string renders as itself.
The catch-all rendering is never reached by key-typed data and no claim
depends on it. -/
def pyUnicode : DBValue → DBValue
  | .objectId h => .str h
  | .str s => .str s
  | _ => .str ""

/-- Lines 62-65 of base.py: value_to_db_date.  None passes through;
otherwise datetime(value.year, value.month, value.day) builds a
timestamp whose four time-of-day fields default to zero.  A value
without year/month/day attributes would raise AttributeError. -/
def value_to_db_date : DBValue → Except PyExc DBValue
  | .pynone => .ok .pynone
  | .pydate y m d => .ok (.pydatetime y m d 0 0 0 0)
  | .pydatetime y m d _ _ _ _ => .ok (.pydatetime y m d 0 0 0 0)
  | _ => .error (.attributeError "object has no attribute year")

/-- Lines 67-71 of base.py: value_to_db_time.  None passes through;
otherwise datetime(1, 1, 1, hour, minute, second, microsecond) uses the
fixed sentinel date year 1, month 1, day 1. -/
def value_to_db_time : DBValue → Except PyExc DBValue
  | .pynone => .ok .pynone
  | .pytime h mi s us => .ok (.pydatetime 1 1 1 h mi s us)
  | .pydatetime _ _ _ h mi s us => .ok (.pydatetime 1 1 1 h mi s us)
  | _ => .error (.attributeError "object has no attribute hour")

/-- Lines 107-112 of base.py: the enriched InvalidId message.  The
formatted message interpolates the (possibly truncated) value through
"%r"; when the failing field belongs to the django_site table the
SITE_ID hint is appended. -/
def autofield_message (preview : String) (field : DjangoField) : String :=
  let msg := "AutoField (default primary key) values must be strings representing an ObjectId on MongoDB (got "
    ++ pyRepr preview ++ " instead)"
  if field.model._meta.db_table = "django_site" then
    msg ++ ". Please make sure your SITE_ID contains a valid ObjectId string."
  else msg

/-- Lines 100-113 of base.py: convert one scalar to an ObjectId; on
InvalidId, assert the value is a unicode string, truncate it to its
first 10 characters plus an ellipsis when it is longer than 13
characters, and re-raise InvalidId with the enriched message. -/
def to_object_id_enriched (value : DBValue) (field : DjangoField) : Except PyExc DBValue :=
  match ObjectId value, value with
  | .ok oid, _ => .ok oid
  | .error (.invalidId _), .str s =>
      let preview := if s.length > 13 then (⟨s.data.take 10⟩ : String) ++ "..." else s
      .error (.invalidId (autofield_message preview field))
  | .error (.invalidId _), _ => .error .assertionError
  | .error e, _ => .error e

mutual

/-- Lines 73-115 of base.py: the body of value_for_db (the safe_call
decorator is applied separately, see value_for_db below).  The first
step of the source, delegation to the djangotoolbox base converter
(an external collaborator), is modelled from the spec as the identity
on the plain boundary values considered here and therefore inlined.
With storage type "key", a list, tuple or set is converted element-wise
by recursive calls to the decorated method and a new Python list is
returned; any other value goes through the ObjectId conversion with the
enriched error message.  With any other storage type the value passes
through unchanged. -/
def value_for_db_inner (value : DBValue) (field : DjangoField) (field_kind db_type : String)
    (lookup : Bool) : Except PyExc DBValue :=
  if db_type = "key" then
    match value with
    | .pylist xs => Except.map DBValue.pylist (value_for_db_seq xs field field_kind db_type lookup)
    | .pytuple xs => Except.map DBValue.pylist (value_for_db_seq xs field field_kind db_type lookup)
    | .pyset xs => Except.map DBValue.pylist (value_for_db_seq xs field field_kind db_type lookup)
    | v => to_object_id_enriched v field
  else
    .ok value

/-- Lines 95-98 of base.py: the list comprehension converting each
element with self.value_for_db, which is the safe_call-decorated
method. -/
def value_for_db_seq (xs : List DBValue) (field : DjangoField) (field_kind db_type : String)
    (lookup : Bool) : Except PyExc (List DBValue) :=
  match xs with
  | [] => .ok []
  | x :: rest => do
      let y ← safe_call (value_for_db_inner x field field_kind db_type lookup)
      let ys ← value_for_db_seq rest field field_kind db_type lookup
      pure (y :: ys)

end

/-- Line 73 of base.py: value_for_db is the safe_call decoration of its
body. -/
def value_for_db (value : DBValue) (field : DjangoField) (field_kind db_type : String)
    (lookup : Bool) : Except PyExc DBValue :=
  safe_call (value_for_db_inner value field field_kind db_type lookup)

/-- Line 127 of base.py: "value is None or value is NOT_PROVIDED", the
identity test against the two singleton sentinels.  Being an identity
test it inspects the object itself and never invokes an equality method
of the value, so it holds for exactly the two sentinel constructors and
for no other value, in particular not for a lazyModelInstance even when
that wrapper would compare equal to None. -/
def is_none_or_not_provided : DBValue → Bool
  | .pynone => true
  | .notProvided => true
  | _ => false

/-- Lines 117-141 of base.py: the body of value_from_db (the safe_call
decorator is applied separately, see value_from_db below).  The None /
NOT_PROVIDED identity check returns None immediately.  Storage type
"key" converts through unicode().  Storage type "date" evaluates
datetime.date(value.year, value.month, value.day): by line 22 of
base.py ("from datetime import datetime") the name datetime is the
class datetime.datetime, so datetime.date is that class`s *instance
method* date, a descriptor that requires a datetime instance as its
first argument; called with an integer it raises TypeError (the source
intended the date constructor of the datetime *module*, which the
line-22 binding shadows).  Storage type "time" fails the same way through
datetime.time.  A value without the year (resp. hour) attributes would
fail earlier, at argument evaluation, with AttributeError.  The final
delegation to the djangotoolbox base converter is modelled from the
spec as the identity. -/
def value_from_db_inner (value : DBValue) (field : DjangoField) (field_kind db_type : String) :
    Except PyExc DBValue :=
  if is_none_or_not_provided value then .ok .pynone
  else
    let value := if db_type = "key" then pyUnicode value else value
    if db_type = "date" then
      match value with
      | .pydatetime .. =>
          .error (.typeError "descriptor date requires a datetime.datetime object but received a int")
      | .pydate .. =>
          .error (.typeError "descriptor date requires a datetime.datetime object but received a int")
      | _ => .error (.attributeError "object has no attribute year")
    else if db_type = "time" then
      match value with
      | .pydatetime .. =>
          .error (.typeError "descriptor time requires a datetime.datetime object but received a int")
      | .pytime .. =>
          .error (.typeError "descriptor time requires a datetime.datetime object but received a int")
      | _ => .error (.attributeError "object has no attribute hour")
    else
      .ok value

/-- Line 117 of base.py: value_from_db is the safe_call decoration of
its body. -/
def value_from_db (value : DBValue) (field : DjangoField) (field_kind db_type : String) :
    Except PyExc DBValue :=
  safe_call (value_from_db_inner value field field_kind db_type)

/-- Lines 49-60 of base.py: sql_flush.  The database is modelled as a
map from collection name to its list of documents; remove() clears all
documents of a collection.  Collections whose name starts with
"system." are skipped; the returned statement list is empty. -/
def sql_flush {α : Type u} (tables : List String) (database : String → List α) :
    (String → List α) × List String :=
  (tables.foldl
    (fun db table =>
      if py_startswith table "system." then db
      else fun t => if t = table then [] else db t)
    database,
   [])

/-- Membership of a key in the Python literal list of the three
operation kinds, line 195 of base.py. -/
def is_operation_key (k : String) : Bool :=
  k == "save" || k == "delete" || k == "update"

/-- Lines 194-198 of base.py: if no key of the OPERATIONS mapping is one
of save, delete, update, the whole mapping becomes the flags of all
three operation kinds; otherwise it is kept as it is. -/
def operation_flags_of (flags : List (String × PyV)) : List (String × PyV) :=
  if flags.any (fun kv => is_operation_key kv.1) then flags
  else [("save", .pydict flags), ("delete", .pydict flags), ("update", .pydict flags)]

/-- Lines 200-202 of base.py: "for key in options.iterkeys():
options[key.lower()] = options.pop(key)".  This is an IDEALIZED model
of the loop: it iterates a snapshot of the keys in association order,
each step popping the key and re-inserting its value under the
lower-cased key (overwriting an existing entry).  The real CPython 2
loop iterates the live dictionary while mutating it, and its outcome
depends on hash-table internals that are outside a shallow embedding:
when two keys collide case-insensitively the dictionary shrinks and the
live iterator raises RuntimeError, and a mid-iteration table resize can
make the iterator skip keys, leaving them un-lowered even without
collisions.  No theorem of this development relies on the result this
idealized loop computes; it is used only inside the connect settings
phase, where the single fact that matters — the loop mutates the
options copy in place and touches no other object — holds under either
semantics (see the C10 frame theorem). -/
def lower_case_options {α : Type u} (options : List (String × α)) : List (String × α) :=
  (options.map Prod.fst).foldl
    (fun d key =>
      match dict_pop d key with
      | (some v, d2) => dict_set d2 (py_lower key) v
      | (none, d2) => d2)
    options

/-- A field of an ordinary model (db_table is not django_site). -/
def sampleField : DjangoField := ⟨⟨⟨"myapp_entry"⟩⟩⟩

/-- A field of the django_site model. -/
def siteField : DjangoField := ⟨⟨⟨"django_site"⟩⟩⟩

/-- A concrete database for the sql_flush witness. -/
def sample_database : String → List Nat := fun t =>
  if t = "users" then [1, 2] else if t = "system.indexes" then [3] else []

/- ------------------------------------------------------------------ -/
/- Heap model for the connect settings phase (claim C10).             -/
/- ------------------------------------------------------------------ -/

/-- A value stored in a dictionary: an immutable scalar, or a reference
to another dictionary object.  Mutable Python dictionaries are always
handled through references, immutable scalars by value. -/
inductive HVal where
  | scalar (v : PyV)
  | ref (r : Nat)
deriving Repr

/-- A Python dictionary object. -/
structure PyDict where
  entries : List (String × HVal)
deriving Repr

/-- The Python object heap: dictionary objects addressed by references,
together with the next fresh reference. -/
structure Heap where
  mem : Nat → Option PyDict
  next : Nat

/-- Reading a dictionary object. -/
def hget (h : Heap) (r : Nat) : Option PyDict := h.mem r

/-- Mutating a dictionary object in place. -/
def hset (h : Heap) (r : Nat) (d : PyDict) : Heap :=
  ⟨fun q => if q = r then some d else h.mem q, h.next⟩

/-- Allocating a new dictionary object at the next fresh reference. -/
def halloc (h : Heap) (d : PyDict) : Nat × Heap :=
  (h.next, ⟨fun q => if q = h.next then some d else h.mem q, h.next + 1⟩)

/-- Every allocated reference lies below next. -/
def domBound (h : Heap) : Prop := ∀ q, h.next ≤ q → hget h q = none

/-- Boolean bound check for a stored value: a reference below n. -/
def HValBound (n : Nat) : HVal → Bool
  | .scalar _ => true
  | .ref r => decide (r < n)

/-- A well-formed heap: addresses and stored references lie below
next. -/
def Heap.closed (h : Heap) : Prop :=
  domBound h ∧
  ∀ q d, hget h q = some d → ∀ kv ∈ d.entries, HValBound h.next kv.2 = true

/-- Heap extension relation: h2 extends h without touching anything
below h.next — reads below h.next agree, the domain stays bounded, and
every dictionary living at or above h.next references only objects at
or above h.next (the freshly copied or freshly allocated region). -/
def HExt (h h2 : Heap) : Prop :=
  h.next ≤ h2.next ∧
  (∀ q, q < h.next → hget h2 q = hget h q) ∧
  domBound h2 ∧
  (∀ q d, hget h2 q = some d → h.next ≤ q →
    ∀ kv ∈ d.entries, ∀ rr, kv.2 = HVal.ref rr → h.next ≤ rr ∧ rr < h2.next)

mutual

/-- Line 184 of base.py: copy.deepcopy of a dictionary object graph.
The fuel argument bounds the recursion (it shrinks on every step, so a
cyclic object graph or an exhausted budget yields none); every
dictionary reachable from the argument is re-allocated at a fresh
reference. -/
def deepcopyRef : Nat → Heap → Nat → Option (Heap × Nat)
  | 0, _, _ => none
  | fuel + 1, h, r =>
    match hget h r with
    | none => none
    | some d =>
      match deepcopyEntries fuel h d.entries with
      | none => none
      | some (h2, es) =>
        match halloc h2 ⟨es⟩ with
        | (r2, h3) => some (h3, r2)

/-- Deep copy of the entries of one dictionary, left to right. -/
def deepcopyEntries : Nat → Heap → List (String × HVal) →
    Option (Heap × List (String × HVal))
  | 0, _, _ => none
  | _ + 1, h, [] => some (h, [])
  | fuel + 1, h, (k, v) :: rest =>
    match deepcopyVal fuel h v with
    | none => none
    | some (h2, v2) =>
      match deepcopyEntries fuel h2 rest with
      | none => none
      | some (h3, es) => some (h3, (k, v2) :: es)

/-- Deep copy of one stored value: scalars are immutable and copied by
value, references are copied recursively. -/
def deepcopyVal : Nat → Heap → HVal → Option (Heap × HVal)
  | 0, _, _ => none
  | _ + 1, h, .scalar v => some (h, .scalar v)
  | fuel + 1, h, .ref r =>
    match deepcopyRef fuel h r with
    | none => none
    | some (h2, r2) => some (h2, .ref r2)

end

/-- Python truthiness of a scalar. -/
def py_falsy_scalar : PyV → Bool
  | .pynone => true
  | .pybool b => !b
  | .pyint n => n == 0
  | .pystr s => s.data.isEmpty
  | .pydict es => es.isEmpty

/-- Python truthiness of a stored value (an empty dictionary is
falsy). -/
def hval_falsy (h : Heap) (v : HVal) : Bool :=
  match v with
  | .scalar pv => py_falsy_scalar pv
  | .ref r =>
    match hget h r with
    | some d => d.entries.isEmpty
    | none => false

/-- Lines 185-186 of base.py: the local helper
"def pop(name, default=None): return settings.pop(name) or default".
Pops the key from the dictionary at sref (none models the KeyError on a
missing key, which Django-complete settings never trigger) and replaces
a falsy value by the default. -/
def settings_pop (h : Heap) (sref : Nat) (name : String) (dflt : HVal) :
    Option (Heap × HVal) :=
  match hget h sref with
  | none => none
  | some d =>
    match dict_pop d.entries name with
    | (some v, es) =>
      let h2 := hset h sref ⟨es⟩
      some (h2, if hval_falsy h2 v then dflt else v)
    | (none, _) => none

/-- The connection arguments extracted from the settings copy by
_connect before it calls the driver. -/
structure ConnectArgs where
  db_name : HVal
  host : HVal
  port : HVal
  user : HVal
  password : HVal
  options : Nat
  operation_flags : Nat
  automatic_referencing : Bool
deriving Repr

/-- Lines 200-202 and 215 of base.py, the closing part of the settings
phase: lower-case the option keys in place on the options copy, read
MONGODB_AUTOMATIC_REFERENCING from the settings copy, and assemble the
connection arguments. -/
def connect_lower_step (h12 : Heap) (optRef opRef sref : Nat)
    (db_name host port user password : HVal) : Option (Heap × ConnectArgs) :=
  match hget h12 optRef with
  | none => none
  | some od2 =>
    let h13 := hset h12 optRef ⟨lower_case_options od2.entries⟩
    let autoref :=
      match hget h13 sref with
      | some sd2 =>
        match sd2.entries.lookup "MONGODB_AUTOMATIC_REFERENCING" with
        | some v => !(hval_falsy h13 v)
        | none => false
      | none => false
    some (h13, ⟨db_name, host, port, user, password, optRef, opRef, autoref⟩)

/-- Lines 195-198 of base.py, continued: read the flags dictionary and,
when none of its keys is an operation kind, broadcast it by allocating
the dictionary mapping save, delete and update to the same flags
object; then finish with connect_lower_step. -/
def connect_flags_and_lower (h10 : Heap) (optRef flagsRef sref : Nat)
    (db_name host port user password : HVal) : Option (Heap × ConnectArgs) :=
  match hget h10 flagsRef with
  | none => none
  | some fd =>
    match (if fd.entries.any (fun kv => is_operation_key kv.1) then (flagsRef, h10)
           else halloc h10 ⟨[("save", HVal.ref flagsRef), ("delete", HVal.ref flagsRef),
                            ("update", HVal.ref flagsRef)]⟩) with
    | (opRef, h12) =>
      connect_lower_step h12 optRef opRef sref db_name host port user password

/-- Lines 183-202 and 215 of base.py: the part of
DatabaseWrapper._connect that works on the settings dictionaries.  It
deep-copies self.settings_dict (line 184), pops NAME, HOST, PORT, USER,
PASSWORD and OPTIONS from the copy (lines 187-192, with the falsy-or-
default helper; the OPTIONS default allocates a fresh empty dict), pops
OPERATIONS out of the options copy with a fresh empty dict as default
(line 194), broadcasts the flags to save/delete/update in a newly
allocated dict when no operation key is present (lines 195-198),
lower-cases the option keys in place (lines 200-202), and reads
MONGODB_AUTOMATIC_REFERENCING from the copy (line 215).  The remaining
lines of _connect call the driver and set wrapper attributes; they
never touch the settings heap.  none models the paths on which Python
would raise (missing key, OPTIONS or OPERATIONS not a dictionary). -/
def connect_settings_phase (fuel : Nat) (h : Heap) (settings_dict : Nat) :
    Option (Heap × ConnectArgs) := do
  let (h1, sref) ← deepcopyRef fuel h settings_dict
  let (h2, db_name) ← settings_pop h1 sref "NAME" (.scalar .pynone)
  let (h3, host) ← settings_pop h2 sref "HOST" (.scalar .pynone)
  let (h4, port) ← settings_pop h3 sref "PORT" (.scalar .pynone)
  let (h5, user) ← settings_pop h4 sref "USER" (.scalar .pynone)
  let (h6, password) ← settings_pop h5 sref "PASSWORD" (.scalar .pynone)
  let (dref, h7) := halloc h6 ⟨[]⟩
  let (h8, optv) ← settings_pop h7 sref "OPTIONS" (.ref dref)
  match optv with
  | .scalar _ => none
  | .ref optRef =>
    match hget h8 optRef with
    | none => none
    | some od =>
      let (eref, h9) := halloc h8 ⟨[]⟩
      let popres := dict_pop od.entries "OPERATIONS"
      let flagsVal := match popres.1 with
        | some v => v
        | none => HVal.ref eref
      let h10 := hset h9 optRef ⟨popres.2⟩
      match flagsVal with
      | .scalar _ => none
      | .ref flagsRef =>
        connect_flags_and_lower h10 optRef flagsRef sref db_name host port user password

/-- A pure (heap-free) tree rendering of a value, used to read out the
observable state of a dictionary graph. -/
inductive PureV where
  | scalar (v : PyV)
  | dict (entries : List (String × PureV))
deriving Repr

mutual

/-- Observable readout of the dictionary graph rooted at a reference,
with a recursion budget. -/
def readoutRef : Nat → Heap → Nat → Option (List (String × PureV))
  | 0, _, _ => none
  | fuel + 1, h, r =>
    match hget h r with
    | none => none
    | some d => readoutEntries fuel h d.entries

/-- Observable readout of a list of entries. -/
def readoutEntries : Nat → Heap → List (String × HVal) →
    Option (List (String × PureV))
  | 0, _, _ => none
  | _ + 1, _, [] => some []
  | fuel + 1, h, (k, v) :: rest =>
    match readoutVal fuel h v with
    | none => none
    | some pv =>
      match readoutEntries fuel h rest with
      | none => none
      | some ps => some ((k, pv) :: ps)

/-- Observable readout of one stored value. -/
def readoutVal : Nat → Heap → HVal → Option PureV
  | 0, _, _ => none
  | _ + 1, _, .scalar v => some (.scalar v)
  | fuel + 1, h, .ref r =>
    match readoutRef fuel h r with
    | none => none
    | some es => some (.dict es)

end

/-- A concrete settings heap for the C10 witness: the settings dict at
reference 0, its OPTIONS dict at reference 1, the OPERATIONS dict at
reference 2. -/
def sample_settings_heap : Heap :=
  ⟨fun q =>
    if q = 0 then some ⟨[("NAME", .scalar (.pystr "test")),
                         ("HOST", .scalar (.pystr "localhost")),
                         ("PORT", .scalar (.pyint 27017)),
                         ("USER", .scalar (.pystr "")),
                         ("PASSWORD", .scalar (.pystr "")),
                         ("OPTIONS", .ref 1),
                         ("MONGODB_AUTOMATIC_REFERENCING", .scalar (.pybool true))]⟩
    else if q = 1 then some ⟨[("OPERATIONS", .ref 2), ("Slave_Okay", .scalar (.pybool true))]⟩
    else if q = 2 then some ⟨[("timeout", .scalar (.pyint 5))]⟩
    else none,
   3⟩

/-- The heap and arguments produced by the connect settings phase on
the sample heap (the fallback branch is never taken). -/
def sample_connect_output : Heap × ConnectArgs :=
  match connect_settings_phase 64 sample_settings_heap 0 with
  | some out => out
  | none => (sample_settings_heap,
      ⟨.scalar .pynone, .scalar .pynone, .scalar .pynone, .scalar .pynone,
       .scalar .pynone, 0, 0, false⟩)

/- ------------------------------------------------------------------ -/
/- Theorems.                                                          -/
/- ------------------------------------------------------------------ -/

/-- Helper: safe_call re-raises any non-InvalidId exception as the
adapter DatabaseError carrying the original message. -/
theorem safe_call_error {α : Type u} (e : PyExc) (he : e.isInvalidId = false) :
    safe_call (α := α) (.error e) = .error (.databaseError e.message) := by
  cases e <;> simp_all [safe_call, PyExc.isInvalidId, PyExc.message]

/-- C2: the to-storage halves behave as claimed — value_to_db_date maps
a date to a timestamp with zero time-of-day fields, value_to_db_time
uses the sentinel date year 1, month 1, day 1, and None passes through
both — but the projection back fails: because line 22 of base.py binds
the name datetime to the class datetime.datetime, line 134
datetime.date(value.year, value.month, value.day) (and line 137
datetime.time(...)) calls an instance-method descriptor with an integer
and raises TypeError, which safe_call turns into the adapter
DatabaseError.  The claimed round-trip therefore fails on every date
and every time. -/
theorem c2_temporal_code_bug :
    value_to_db_date (.pydate 2010 12 31) = .ok (.pydatetime 2010 12 31 0 0 0 0) ∧
    value_to_db_time (.pytime 14 30 59 123456) = .ok (.pydatetime 1 1 1 14 30 59 123456) ∧
    value_to_db_date .pynone = .ok .pynone ∧
    value_to_db_time .pynone = .ok .pynone ∧
    value_from_db (.pydatetime 2010 12 31 0 0 0 0) sampleField "DateField" "date" =
      .error (.databaseError "descriptor date requires a datetime.datetime object but received a int") ∧
    value_from_db (.pydatetime 1 1 1 14 30 59 123456) sampleField "TimeField" "time" =
      .error (.databaseError "descriptor time requires a datetime.datetime object but received a int") :=
  ⟨rfl, rfl, rfl, rfl, rfl, rfl⟩

/-- C7: value_for_db and value_from_db are exactly the safe_call
decoration of their bodies; an InvalidId error of the body propagates
unchanged through the boundary, and any other exception of the body is
re-raised as the single adapter-level DatabaseError kind. -/
theorem c7_safe_call_boundary (value : DBValue) (field : DjangoField)
    (field_kind db_type : String) (lookup : Bool) :
    value_for_db value field field_kind db_type lookup =
      safe_call (value_for_db_inner value field field_kind db_type lookup) ∧
    value_from_db value field field_kind db_type =
      safe_call (value_from_db_inner value field field_kind db_type) ∧
    (∀ m, value_for_db_inner value field field_kind db_type lookup = .error (.invalidId m) →
      value_for_db value field field_kind db_type lookup = .error (.invalidId m)) ∧
    (∀ e, value_for_db_inner value field field_kind db_type lookup = .error e →
      e.isInvalidId = false →
      value_for_db value field field_kind db_type lookup = .error (.databaseError e.message)) ∧
    (∀ m, value_from_db_inner value field field_kind db_type = .error (.invalidId m) →
      value_from_db value field field_kind db_type = .error (.invalidId m)) ∧
    (∀ e, value_from_db_inner value field field_kind db_type = .error e →
      e.isInvalidId = false →
      value_from_db value field field_kind db_type = .error (.databaseError e.message)) := by
  refine ⟨rfl, rfl, ?_, ?_, ?_, ?_⟩
  · intro m h; unfold value_for_db; rw [h]; rfl
  · intro e h he; unfold value_for_db; rw [h]; exact safe_call_error e he
  · intro m h; unfold value_from_db; rw [h]; rfl
  · intro e h he; unfold value_from_db; rw [h]; exact safe_call_error e he

/-- Witness for C7: a malformed key string makes the body raise
InvalidId, which the boundary passes through unchanged; a time-typed
read makes the body raise TypeError, which the boundary re-raises as
DatabaseError. -/
theorem c7_safe_call_boundary_witness :
    value_for_db (.str "zzz") sampleField "AutoField" "key" false =
      .error (.invalidId (autofield_message "zzz" sampleField)) ∧
    value_from_db (.pytime 1 2 3 4) sampleField "TimeField" "time" =
      .error (.databaseError "descriptor time requires a datetime.datetime object but received a int") :=
  ⟨(c7_safe_call_boundary (.str "zzz") sampleField "AutoField" "key" false).2.2.1
      (autofield_message "zzz" sampleField) rfl,
   (c7_safe_call_boundary (.pytime 1 2 3 4) sampleField "TimeField" "time" false).2.2.2.2.2
      (.typeError "descriptor time requires a datetime.datetime object but received a int") rfl rfl⟩

/-- C3: for every field, kind and storage type, value_from_db maps the
None singleton and the NOT_PROVIDED sentinel to None immediately.  The
check is the identity test of line 127 (value is None or value is
NOT_PROVIDED): it holds for exactly the two sentinel objects, so a
lazyModelInstance — the wrapper whose equality comparison performs a
database query — is never treated as one of them and its equality is
never invoked; with a generic storage type it passes through
untouched. -/
theorem c3_none_sentinel (field : DjangoField) (field_kind db_type : String) :
    value_from_db .pynone field field_kind db_type = .ok .pynone ∧
    value_from_db .notProvided field field_kind db_type = .ok .pynone ∧
    (db_type ≠ "key" → db_type ≠ "date" → db_type ≠ "time" →
      ∀ pk, value_from_db (.lazyModelInstance pk) field field_kind db_type =
        .ok (.lazyModelInstance pk)) := by
  refine ⟨rfl, rfl, ?_⟩
  intro h1 h2 h3 pk
  unfold value_from_db value_from_db_inner
  simp [is_none_or_not_provided, h1, h2, h3, safe_call]

/-- Witness for C3 at a generic string storage type. -/
theorem c3_none_sentinel_witness :
    value_from_db .pynone sampleField "ForeignKey" "string" = .ok .pynone ∧
    value_from_db .notProvided sampleField "ForeignKey" "string" = .ok .pynone ∧
    value_from_db (.lazyModelInstance "abc") sampleField "ForeignKey" "string" =
      .ok (.lazyModelInstance "abc") :=
  ⟨(c3_none_sentinel sampleField "ForeignKey" "string").1,
   (c3_none_sentinel sampleField "ForeignKey" "string").2.1,
   (c3_none_sentinel sampleField "ForeignKey" "string").2.2
     (by decide) (by decide) (by decide) "abc"⟩

/-- Helper: pointwise description of the database produced by the
sql_flush fold. -/
theorem sql_flush_foldl_apply {α : Type u} (tables : List String)
    (db : String → List α) (t : String) :
    (tables.foldl
      (fun db table =>
        if py_startswith table "system." then db
        else fun t2 => if t2 = table then [] else db t2)
      db) t =
    if t ∈ tables ∧ py_startswith t "system." = false then [] else db t := by
  induction tables generalizing db with
  | nil => simp
  | cons a rest ih =>
    rw [List.foldl_cons, ih]
    by_cases h3 : t = a <;> by_cases h4 : py_startswith a "system." = true <;>
      by_cases h2 : py_startswith t "system." = false <;>
      by_cases h1 : t ∈ rest <;> simp_all [List.mem_cons]

/-- C9: sql_flush clears exactly the given tables that do not carry the
reserved "system." name, leaves system tables and unlisted tables
untouched, and returns the empty statement list. -/
theorem c9_sql_flush {α : Type u} (tables : List String) (database : String → List α)
    (t : String) :
    (sql_flush tables database).2 = [] ∧
    (t ∈ tables → py_startswith t "system." = false → (sql_flush tables database).1 t = []) ∧
    (py_startswith t "system." = true → (sql_flush tables database).1 t = database t) ∧
    (t ∉ tables → (sql_flush tables database).1 t = database t) := by
  refine ⟨rfl, ?_, ?_, ?_⟩
  · intro hmem hsys
    show (tables.foldl _ database) t = _
    rw [sql_flush_foldl_apply]
    simp [hmem, hsys]
  · intro hsys
    show (tables.foldl _ database) t = _
    rw [sql_flush_foldl_apply]
    simp [hsys]
  · intro hmem
    show (tables.foldl _ database) t = _
    rw [sql_flush_foldl_apply]
    simp [hmem]

/-- Witness for C9 on the table list of the spec example: users is
cleared, system.indexes keeps its documents, no statements are
returned. -/
theorem c9_sql_flush_witness :
    (sql_flush ["users", "system.indexes"] sample_database).1 "users" = [] ∧
    (sql_flush ["users", "system.indexes"] sample_database).1 "system.indexes" =
      sample_database "system.indexes" ∧
    (sql_flush ["users", "system.indexes"] sample_database).2 = [] :=
  ⟨(c9_sql_flush ["users", "system.indexes"] sample_database "users").2.1
      (by decide) (by decide),
   (c9_sql_flush ["users", "system.indexes"] sample_database "system.indexes").2.2.1
      (by decide),
   (c9_sql_flush ["users", "system.indexes"] sample_database "users").1⟩

/-- C6: when the OPERATIONS mapping holds none of the keys save, delete,
update, the whole mapping is broadcast as the flags of all three
operation kinds; when it holds any of those keys it is kept exactly as
it is (so a mapping with only a save entry leaves delete and update
absent). -/
theorem c6_operation_flags (flags : List (String × PyV)) :
    (flags.any (fun kv => is_operation_key kv.1) = false →
      operation_flags_of flags =
        [("save", .pydict flags), ("delete", .pydict flags), ("update", .pydict flags)] ∧
      (operation_flags_of flags).lookup "save" = some (.pydict flags) ∧
      (operation_flags_of flags).lookup "delete" = some (.pydict flags) ∧
      (operation_flags_of flags).lookup "update" = some (.pydict flags)) ∧
    (flags.any (fun kv => is_operation_key kv.1) = true →
      operation_flags_of flags = flags) := by
  constructor
  · intro h
    refine ⟨?_, ?_, ?_, ?_⟩ <;> simp [operation_flags_of, h, List.lookup]
  · intro h
    simp [operation_flags_of, h]

/-- Witness for C6 on the two examples of the claim: a pure flag map is
broadcast to save, delete and update; a map holding only a save key is
kept as-is, so delete and update stay absent. -/
theorem c6_operation_flags_witness :
    operation_flags_of [("timeout", .pyint 5)] =
      [("save", .pydict [("timeout", .pyint 5)]),
       ("delete", .pydict [("timeout", .pyint 5)]),
       ("update", .pydict [("timeout", .pyint 5)])] ∧
    operation_flags_of [("save", .pydict [("timeout", .pyint 5)])] =
      [("save", .pydict [("timeout", .pyint 5)])] ∧
    (operation_flags_of [("save", .pydict [("timeout", .pyint 5)])]).lookup "delete" = none ∧
    (operation_flags_of [("save", .pydict [("timeout", .pyint 5)])]).lookup "update" = none :=
  ⟨((c6_operation_flags [("timeout", .pyint 5)]).1 rfl).1,
   (c6_operation_flags [("save", .pydict [("timeout", .pyint 5)])]).2 rfl,
   by rw [(c6_operation_flags [("save", .pydict [("timeout", .pyint 5)])]).2 rfl]; rfl,
   by rw [(c6_operation_flags [("save", .pydict [("timeout", .pyint 5)])]).2 rfl]; rfl⟩

/-- Helper: a list is a Boolean-prefix of itself followed by anything. -/
theorem isPrefixOf_append_self (n c : List Char) : n.isPrefixOf (n ++ c) = true := by
  induction n with
  | nil => simp [List.isPrefixOf]
  | cons a t ih => simp [List.isPrefixOf, ih]

/-- Helper: the middle part of a concatenation is contained in it. -/
theorem charsContain_append_mid (a b c : List Char) :
    charsContain (a ++ b ++ c) b = true := by
  unfold charsContain
  rw [List.any_eq_true]
  refine ⟨a.length, ?_, ?_⟩
  · rw [List.mem_range]
    simp only [List.length_append]
    omega
  · rw [List.append_assoc, List.drop_left]
    exact isPrefixOf_append_self b c

/-- Helper: substring containment follows from a decomposition of the
character data. -/
theorem strContains_of_data (m mid : String) (pre post : List Char)
    (h : m.data = pre ++ mid.data ++ post) : strContains m mid = true := by
  unfold strContains
  rw [h]
  exact charsContain_append_mid pre mid.data post

/-- Helper: with storage type key, a valid identifier string converts to
the identifier carrying the same text. -/
theorem value_for_db_valid_key (s : String) (field : DjangoField) (field_kind : String)
    (lookup : Bool) (h : is_valid_object_id_string s = true) :
    value_for_db (.str s) field field_kind "key" lookup = .ok (.objectId s) := by
  unfold value_for_db value_for_db_inner
  simp [to_object_id_enriched, ObjectId, h, safe_call]

/-- C1: for every valid identifier string, converting to storage with
storage type key and back returns the original string. -/
theorem c1_key_roundtrip (s : String) (field : DjangoField) (field_kind : String)
    (lookup : Bool) (h : is_valid_object_id_string s = true) :
    (value_for_db (.str s) field field_kind "key" lookup).bind
      (fun v => value_from_db v field field_kind "key") = .ok (.str s) := by
  rw [value_for_db_valid_key s field field_kind lookup h]
  show value_from_db (.objectId s) field field_kind "key" = .ok (.str s)
  rfl

/-- Witness for C1 at a concrete 24-digit identifier. -/
theorem c1_key_roundtrip_witness :
    (value_for_db (.str "4f07fbc2e4d30b3d5d000000") sampleField "AutoField" "key" false).bind
      (fun v => value_from_db v sampleField "AutoField" "key") =
      .ok (.str "4f07fbc2e4d30b3d5d000000") :=
  c1_key_roundtrip "4f07fbc2e4d30b3d5d000000" sampleField "AutoField" false (by decide)

/-- Helper: element-wise conversion of a list of valid identifier
strings succeeds and keeps the order. -/
theorem value_for_db_seq_valid (ss : List String) (field : DjangoField) (field_kind : String)
    (lookup : Bool) (h : ∀ s ∈ ss, is_valid_object_id_string s = true) :
    value_for_db_seq (ss.map .str) field field_kind "key" lookup =
      .ok (ss.map .objectId) := by
  induction ss with
  | nil => rfl
  | cons a t ih =>
    have ha : is_valid_object_id_string a = true := h a (List.mem_cons_self a t)
    have ht : ∀ s ∈ t, is_valid_object_id_string s = true :=
      fun s hs => h s (List.mem_cons_of_mem a hs)
    have hval := value_for_db_valid_key a field field_kind lookup ha
    unfold value_for_db at hval
    simp only [List.map_cons]
    rw [value_for_db_seq]
    rw [hval]
    simp [Except.bind, ih ht]
    rfl

/-- C4: with storage type key, a list, a tuple and a set of valid
identifier strings each convert element-wise, in the original order,
into a freshly built Python list of identifiers (the input collection
is not modified: the comprehension of lines 96-98 always builds a new
list, whatever the input collection type was). -/
theorem c4_key_collections (ss : List String) (field : DjangoField) (field_kind : String)
    (lookup : Bool) (h : ∀ s ∈ ss, is_valid_object_id_string s = true) :
    value_for_db (.pylist (ss.map .str)) field field_kind "key" lookup =
      .ok (.pylist (ss.map .objectId)) ∧
    value_for_db (.pytuple (ss.map .str)) field field_kind "key" lookup =
      .ok (.pylist (ss.map .objectId)) ∧
    value_for_db (.pyset (ss.map .str)) field field_kind "key" lookup =
      .ok (.pylist (ss.map .objectId)) := by
  have hseq := value_for_db_seq_valid ss field field_kind lookup h
  refine ⟨?_, ?_, ?_⟩ <;>
  · unfold value_for_db value_for_db_inner
    simp [hseq, safe_call, Except.map]

/-- Witness for C4 at a three-element list. -/
theorem c4_key_collections_witness :
    value_for_db
        (.pylist [.str "4f07fbc2e4d30b3d5d000000", .str "000000000000000000000000",
                  .str "ffffffffffffffffffffffff"])
        sampleField "AutoField" "key" false =
      .ok (.pylist [.objectId "4f07fbc2e4d30b3d5d000000", .objectId "000000000000000000000000",
                    .objectId "ffffffffffffffffffffffff"]) :=
  (c4_key_collections
    ["4f07fbc2e4d30b3d5d000000", "000000000000000000000000", "ffffffffffffffffffffffff"]
    sampleField "AutoField" false (by decide)).1

/-- C5 (amended): a malformed identifier string longer than 13
characters fails with InvalidId whose message interpolates only the
truncated preview — the first 10 characters followed by an ellipsis —
through "%r", and the message carries the SITE_ID hint when the failing
field belongs to the django_site table.  (The full original string is
not interpolated; it can nevertheless occur in the message when it
happens to coincide with the fixed message text, see the
counterexample.) -/
theorem c5_invalid_id_message (s : String) (field : DjangoField) (field_kind : String)
    (lookup : Bool) (hinv : is_valid_object_id_string s = false) (hlen : 13 < s.length) :
    value_for_db (.str s) field field_kind "key" lookup =
      .error (.invalidId (autofield_message ((⟨s.data.take 10⟩ : String) ++ "...") field)) ∧
    strContains (autofield_message ((⟨s.data.take 10⟩ : String) ++ "...") field)
      (pyRepr ((⟨s.data.take 10⟩ : String) ++ "...")) = true ∧
    (field.model._meta.db_table = "django_site" →
      strContains (autofield_message ((⟨s.data.take 10⟩ : String) ++ "...") field)
        ". Please make sure your SITE_ID contains a valid ObjectId string." = true) := by
  refine ⟨?_, ?_, ?_⟩
  · unfold value_for_db value_for_db_inner
    simp [to_object_id_enriched, ObjectId, hinv, hlen, safe_call]
  · unfold autofield_message
    by_cases htab : field.model._meta.db_table = "django_site"
    · rw [if_pos htab]
      refine strContains_of_data _ _
        ("AutoField (default primary key) values must be strings representing an ObjectId on MongoDB (got ").data
        ((" instead)" : String).data ++
         (". Please make sure your SITE_ID contains a valid ObjectId string." : String).data) ?_
      simp [String.data_append, List.append_assoc]
    · rw [if_neg htab]
      refine strContains_of_data _ _
        ("AutoField (default primary key) values must be strings representing an ObjectId on MongoDB (got ").data
        ((" instead)" : String).data) ?_
      simp [String.data_append, List.append_assoc]
  · intro htab
    unfold autofield_message
    rw [if_pos htab]
    refine strContains_of_data _ _
      (("AutoField (default primary key) values must be strings representing an ObjectId on MongoDB (got "
        ++ pyRepr ((⟨s.data.take 10⟩ : String) ++ "...") ++ " instead)").data) [] ?_
    simp [String.data_append, List.append_assoc]

/-- Witness for C5 on the spec example string, against the django_site
field. -/
theorem c5_invalid_id_message_witness :
    value_for_db (.str "not-a-valid-id-longer-than-13-chars") siteField "AutoField" "key" false =
      .error (.invalidId (autofield_message
        ((⟨("not-a-valid-id-longer-than-13-chars" : String).data.take 10⟩ : String) ++ "...")
        siteField)) ∧
    strContains
      (autofield_message
        ((⟨("not-a-valid-id-longer-than-13-chars" : String).data.take 10⟩ : String) ++ "...")
        siteField)
      (pyRepr ((⟨("not-a-valid-id-longer-than-13-chars" : String).data.take 10⟩ : String) ++ "...")) =
      true ∧
    (siteField.model._meta.db_table = "django_site" →
      strContains
        (autofield_message
          ((⟨("not-a-valid-id-longer-than-13-chars" : String).data.take 10⟩ : String) ++ "...")
          siteField)
        ". Please make sure your SITE_ID contains a valid ObjectId string." = true) :=
  c5_invalid_id_message "not-a-valid-id-longer-than-13-chars" siteField "AutoField" false
    (by decide) (by decide)

/-- C5 counterexample: the claim also states the message never contains
the full original string.  That is false: the malformed 14-character
value "values must be" occurs verbatim inside the fixed text of the
message ("AutoField (default primary key) values must be strings ..."),
even though only the truncated preview is interpolated. -/
theorem c5_full_value_in_message :
    value_for_db (.str "values must be") sampleField "AutoField" "key" false =
      .error (.invalidId (autofield_message "values mus..." sampleField)) ∧
    strContains (autofield_message "values mus..." sampleField) "values must be" = true ∧
    13 < ("values must be" : String).length :=
  ⟨rfl, by decide, by decide⟩

/-- C8: the two OPTIONS keys Timeout and TIMEOUT of the failing input
collide under key.lower() (line 201), so the conclusion the claim
promises there is unsatisfiable for every mapping the driver could
conceivably receive, whatever the dictionary-iteration internals do:
both original values would have to be preserved under the single
lower-cased key timeout.  (What the code actually does at this input is
hand-traced rather than modelled, because it hinges on CPython 2
hash-table internals: the loop of lines 200-202 mutates the dictionary
while iterating iterkeys() live, so once the second colliding key is
popped and its value overwrites the already-inserted timeout entry the
dictionary has shrunk and the iterator raises RuntimeError at its next
step — _connect crashes before the driver is called — and after a
mid-iteration table resize the loop can instead terminate with keys
skipped and left un-lowered.) -/
theorem c8_collision_unsatisfiable :
    py_lower "Timeout" = "timeout" ∧
    py_lower "TIMEOUT" = "timeout" ∧
    ∀ received : List (String × PyV),
      ¬ (received.lookup (py_lower "Timeout") = some (PyV.pyint 1) ∧
         received.lookup (py_lower "TIMEOUT") = some (PyV.pyint 2)) := by
  refine ⟨by decide, by decide, ?_⟩
  intro received h
  obtain ⟨h1, h2⟩ := h
  rw [show py_lower "Timeout" = "timeout" by decide] at h1
  rw [show py_lower "TIMEOUT" = "timeout" by decide] at h2
  rw [h1] at h2
  injection h2 with h3
  injection h3 with h4
  exact absurd h4 (by decide)

/-- Witness for C8 at the mapping the idealized completed loop would
produce: even it cannot preserve both colliding values. -/
theorem c8_collision_unsatisfiable_witness :
    ¬ (([("timeout", PyV.pyint 2)] : List (String × PyV)).lookup (py_lower "Timeout") =
         some (PyV.pyint 1) ∧
       ([("timeout", PyV.pyint 2)] : List (String × PyV)).lookup (py_lower "TIMEOUT") =
         some (PyV.pyint 2)) :=
  c8_collision_unsatisfiable.2.2 [("timeout", PyV.pyint 2)]

/-- Helper: reading another reference after an in-place write. -/
theorem hget_hset_ne (h : Heap) (r : Nat) (d : PyDict) (q : Nat) (hne : q ≠ r) :
    hget (hset h r d) q = hget h q := by
  simp [hget, hset, hne]

/-- Helper: reading the written reference after an in-place write. -/
theorem hget_hset_self (h : Heap) (r : Nat) (d : PyDict) :
    hget (hset h r d) r = some d := by
  simp [hget, hset]

/-- Helper: reading another reference after an allocation. -/
theorem hget_halloc_ne (h : Heap) (d : PyDict) (q : Nat) (hne : q ≠ h.next) :
    hget (halloc h d).2 q = hget h q := by
  simp [hget, halloc, hne]

/-- Helper: reading the allocated reference. -/
theorem hget_halloc_self (h : Heap) (d : PyDict) :
    hget (halloc h d).2 h.next = some d := by
  simp [hget, halloc]

/-- Helper: a domain-bounded heap extends itself. -/
theorem HExt_refl (h : Heap) (hdom : domBound h) : HExt h h := by
  refine ⟨Nat.le_refl _, fun q _ => rfl, hdom, ?_⟩
  intro q d hq hge kv hkv rr hrr
  rw [hdom q hge] at hq
  cases hq

/-- Helper: allocating a dictionary whose references lie in the fresh
region preserves the heap extension. -/
theorem HExt_halloc (base cur : Heap) (d : PyDict) (hext : HExt base cur)
    (hd : ∀ kv ∈ d.entries, ∀ rr, kv.2 = HVal.ref rr → base.next ≤ rr ∧ rr < cur.next) :
    HExt base (halloc cur d).2 := by
  obtain ⟨hle, hag, hdom, hfresh⟩ := hext
  refine ⟨?_, ?_, ?_, ?_⟩
  · show base.next ≤ cur.next + 1
    omega
  · intro q hq
    rw [hget_halloc_ne cur d q (by omega)]
    exact hag q hq
  · intro q hq
    have hq2 : cur.next + 1 ≤ q := hq
    rw [hget_halloc_ne cur d q (by omega)]
    exact hdom q (by omega)
  · intro q d2 hq hge kv hkv rr hrr
    by_cases hqn : q = cur.next
    · subst hqn
      rw [hget_halloc_self] at hq
      cases hq
      have := hd kv hkv rr hrr
      show base.next ≤ rr ∧ rr < cur.next + 1
      omega
    · rw [hget_halloc_ne cur d q hqn] at hq
      have := hfresh q d2 hq hge kv hkv rr hrr
      show base.next ≤ rr ∧ rr < cur.next + 1
      omega

/-- Helper: overwriting a dictionary in the fresh region with entries
whose references lie in the fresh region preserves the heap
extension. -/
theorem HExt_hset (base cur : Heap) (r : Nat) (d : PyDict) (hext : HExt base cur)
    (hr1 : base.next ≤ r) (hr2 : r < cur.next)
    (hd : ∀ kv ∈ d.entries, ∀ rr, kv.2 = HVal.ref rr → base.next ≤ rr ∧ rr < cur.next) :
    HExt base (hset cur r d) := by
  obtain ⟨hle, hag, hdom, hfresh⟩ := hext
  refine ⟨hle, ?_, ?_, ?_⟩
  · intro q hq
    rw [hget_hset_ne cur r d q (by omega)]
    exact hag q hq
  · intro q hq
    have hq2 : cur.next ≤ q := hq
    show hget (hset cur r d) q = none
    rw [hget_hset_ne cur r d q (by omega)]
    exact hdom q hq2
  · intro q d2 hq hge kv hkv rr hrr
    by_cases hqr : q = r
    · subst hqr
      rw [hget_hset_self] at hq
      cases hq
      exact hd kv hkv rr hrr
    · rw [hget_hset_ne cur r d q hqr] at hq
      exact hfresh q d2 hq hge kv hkv rr hrr

/-- Helper: heap extension is transitive. -/
theorem HExt_trans (h1 h2 h3 : Heap) (a : HExt h1 h2) (b : HExt h2 h3) : HExt h1 h3 := by
  obtain ⟨a1, a2, a3, a4⟩ := a
  obtain ⟨b1, b2, b3, b4⟩ := b
  refine ⟨by omega, ?_, b3, ?_⟩
  · intro q hq
    rw [b2 q (by omega)]
    exact a2 q hq
  · intro q d hq hge kv hkv rr hrr
    by_cases hql : q < h2.next
    · rw [b2 q hql] at hq
      have := a4 q d hq hge kv hkv rr hrr
      omega
    · have := b4 q d hq (by omega) kv hkv rr hrr
      omega

/-- Helper: entries surviving a pop were entries before. -/
theorem dict_pop_mem_of {α : Type u} (es : List (String × α)) (k : String) :
    ∀ kv ∈ (dict_pop es k).2, kv ∈ es := by
  induction es with
  | nil => intro kv hkv; simp [dict_pop] at hkv
  | cons e rest ih =>
    obtain ⟨k0, v0⟩ := e
    intro kv hkv
    by_cases h : k0 = k
    · simp [dict_pop, h] at hkv
      exact List.mem_cons_of_mem _ hkv
    · simp only [dict_pop, if_neg h] at hkv
      rcases List.mem_cons.mp hkv with h1 | h2
      · exact h1 ▸ List.mem_cons_self _ _
      · exact List.mem_cons_of_mem _ (ih kv h2)

/-- Helper: a popped value was a value of some entry. -/
theorem dict_pop_fst_mem {α : Type u} (es : List (String × α)) (k : String) (v : α)
    (h : (dict_pop es k).1 = some v) : ∃ k0, (k0, v) ∈ es := by
  induction es with
  | nil => simp [dict_pop] at h
  | cons e rest ih =>
    obtain ⟨k0, v0⟩ := e
    by_cases hk : k0 = k
    · simp [dict_pop, hk] at h
      exact ⟨k0, h ▸ List.mem_cons_self _ _⟩
    · simp only [dict_pop, if_neg hk] at h
      obtain ⟨k1, hk1⟩ := ih h
      exact ⟨k1, List.mem_cons_of_mem _ hk1⟩

/-- Helper: entries after a set are the new entry or old entries. -/
theorem dict_set_mem_of {α : Type u} (es : List (String × α)) (k : String) (v : α) :
    ∀ kv ∈ dict_set es k v, kv = (k, v) ∨ kv ∈ es := by
  induction es with
  | nil =>
    intro kv hkv
    simp [dict_set] at hkv
    exact Or.inl hkv
  | cons e rest ih =>
    obtain ⟨k0, v0⟩ := e
    intro kv hkv
    by_cases hk : k0 = k
    · simp only [dict_set, if_pos hk] at hkv
      rcases List.mem_cons.mp hkv with h1 | h2
      · exact Or.inl h1
      · exact Or.inr (List.mem_cons_of_mem _ h2)
    · simp only [dict_set, if_neg hk] at hkv
      rcases List.mem_cons.mp hkv with h1 | h2
      · exact Or.inr (h1 ▸ List.mem_cons_self _ _)
      · rcases ih kv h2 with ha | hb
        · exact Or.inl ha
        · exact Or.inr (List.mem_cons_of_mem _ hb)

/-- Helper: the key-lowering fold only rearranges entries, so a
predicate on the stored values is preserved. -/
theorem foldl_lower_vals {α : Type u} (P : α → Prop) (keys : List String)
    (d : List (String × α)) (hd : ∀ kv ∈ d, P kv.2) :
    ∀ kv ∈ keys.foldl
      (fun d key =>
        match dict_pop d key with
        | (some v, d2) => dict_set d2 (py_lower key) v
        | (none, d2) => d2)
      d, P kv.2 := by
  induction keys generalizing d with
  | nil => exact hd
  | cons key rest ih =>
    rw [List.foldl_cons]
    apply ih
    rcases hdp : dict_pop d key with ⟨popv, d2⟩
    have hd2 : ∀ kv ∈ d2, P kv.2 := by
      intro kv hkv
      apply hd
      have := dict_pop_mem_of d key kv
      rw [hdp] at this
      exact this hkv
    cases popv with
    | none => simpa [hdp] using hd2
    | some v =>
      have hv : P v := by
        obtain ⟨k0, hk0⟩ := dict_pop_fst_mem d key v (by rw [hdp])
        exact hd (k0, v) hk0
      intro kv hkv
      rcases dict_set_mem_of d2 (py_lower key) v kv hkv with h1 | h2
      · rw [h1]; exact hv
      · exact hd2 kv h2

/-- Helper: lower_case_options preserves a predicate on the stored
values (it permutes entries and rewrites keys, never values). -/
theorem lower_case_options_vals {α : Type u} (P : α → Prop) (es : List (String × α))
    (hd : ∀ kv ∈ es, P kv.2) : ∀ kv ∈ lower_case_options es, P kv.2 := by
  unfold lower_case_options
  exact foldl_lower_vals P (es.map Prod.fst) es hd

/-- Helper: joint specification of the three deep-copy functions, by
induction on the fuel.  On success the heap is extended without
touching the region below the original next pointer, and all produced
references (the copy root, the references inside copied entry lists)
lie in the fresh region. -/
theorem deepcopy_spec : ∀ fuel : Nat,
    (∀ h r h2 r2, domBound h → deepcopyRef fuel h r = some (h2, r2) →
      HExt h h2 ∧ h.next ≤ r2 ∧ r2 < h2.next) ∧
    (∀ h es h2 es2, domBound h → deepcopyEntries fuel h es = some (h2, es2) →
      HExt h h2 ∧ ∀ kv ∈ es2, ∀ rr, kv.2 = HVal.ref rr → h.next ≤ rr ∧ rr < h2.next) ∧
    (∀ h v h2 v2, domBound h → deepcopyVal fuel h v = some (h2, v2) →
      HExt h h2 ∧ ∀ rr, v2 = HVal.ref rr → h.next ≤ rr ∧ rr < h2.next) := by
  intro fuel
  induction fuel with
  | zero =>
    refine ⟨?_, ?_, ?_⟩
    · intro h r h2 r2 hdom hdc
      simp [deepcopyRef] at hdc
    · intro h es h2 es2 hdom hdc
      simp [deepcopyEntries] at hdc
    · intro h v h2 v2 hdom hdc
      simp [deepcopyVal] at hdc
  | succ f ih =>
    obtain ⟨ihR, ihE, ihV⟩ := ih
    refine ⟨?_, ?_, ?_⟩
    · intro h r h2 r2 hdom hdc
      unfold deepcopyRef at hdc
      cases hg : hget h r with
      | none => rw [hg] at hdc; simp at hdc
      | some d =>
        rw [hg] at hdc
        dsimp only at hdc
        cases he : deepcopyEntries f h d.entries with
        | none => rw [he] at hdc; simp at hdc
        | some pr =>
          obtain ⟨hm, es⟩ := pr
          rw [he] at hdc
          dsimp only at hdc
          simp [halloc] at hdc
          obtain ⟨hh2, hr2⟩ := hdc
          obtain ⟨hextE, hrefs⟩ := ihE h d.entries hm es hdom he
          have hext2 : HExt h (halloc hm ⟨es⟩).2 :=
            HExt_halloc h hm ⟨es⟩ hextE hrefs
          have hle : h.next ≤ hm.next := hextE.1
          constructor
          · rw [← hh2]
            show HExt h (halloc hm ⟨es⟩).2
            exact hext2
          · constructor
            · rw [← hr2]; omega
            · rw [← hr2, ← hh2]
              show hm.next < (halloc hm ⟨es⟩).2.next
              show hm.next < hm.next + 1
              omega
    · intro h es h2 es2 hdom hdc
      cases es with
      | nil =>
        unfold deepcopyEntries at hdc
        simp at hdc
        obtain ⟨hh2, hes2⟩ := hdc
        subst hh2
        subst hes2
        exact ⟨HExt_refl h hdom, by intro kv hkv; cases hkv⟩
      | cons e rest =>
        obtain ⟨k, v⟩ := e
        unfold deepcopyEntries at hdc
        cases hv : deepcopyVal f h v with
        | none => rw [hv] at hdc; simp at hdc
        | some pv =>
          obtain ⟨hm, v2⟩ := pv
          rw [hv] at hdc
          dsimp only at hdc
          cases he : deepcopyEntries f hm rest with
          | none => rw [he] at hdc; simp at hdc
          | some pe =>
            obtain ⟨h3, es3⟩ := pe
            rw [he] at hdc
            dsimp only at hdc
            simp at hdc
            obtain ⟨hh2, hes2⟩ := hdc
            subst hh2
            obtain ⟨hextV, hvref⟩ := ihV h v hm v2 hdom hv
            obtain ⟨hextE, herefs⟩ := ihE hm rest h3 es3 hextV.2.2.1 he
            have hle1 : h.next ≤ hm.next := hextV.1
            have hle2 : hm.next ≤ h3.next := hextE.1
            refine ⟨HExt_trans h hm h3 hextV hextE, ?_⟩
            intro kv hkv rr hrr
            rw [← hes2] at hkv
            rcases List.mem_cons.mp hkv with h1 | h2
            · subst h1
              have := hvref rr hrr
              omega
            · have := herefs kv h2 rr hrr
              omega
    · intro h v h2 v2 hdom hdc
      cases v with
      | scalar pv =>
        unfold deepcopyVal at hdc
        simp at hdc
        obtain ⟨hh2, hv2⟩ := hdc
        subst hh2
        subst hv2
        refine ⟨HExt_refl h hdom, ?_⟩
        intro rr hrr
        cases hrr
      | ref r =>
        unfold deepcopyVal at hdc
        cases hr : deepcopyRef f h r with
        | none => rw [hr] at hdc; simp at hdc
        | some pr =>
          obtain ⟨hm, r2⟩ := pr
          rw [hr] at hdc
          dsimp only at hdc
          simp at hdc
          obtain ⟨hh2, hv2⟩ := hdc
          subst hh2
          obtain ⟨hextR, hr1, hr2⟩ := ihR h r hm r2 hdom hr
          refine ⟨hextR, ?_⟩
          intro rr hrr
          rw [← hv2] at hrr
          cases hrr
          exact ⟨hr1, hr2⟩

/-- Helper: the pop helper of lines 185-186 only rewrites the settings
copy (a dictionary in the fresh region): the heap extension is
preserved, next does not move, and the returned value is the default or
a value that was stored in the fresh region. -/
theorem settings_pop_frame (base h : Heap) (sref : Nat) (name : String) (dflt : HVal)
    (h2 : Heap) (v : HVal)
    (hext : HExt base h) (hr1 : base.next ≤ sref) (hr2 : sref < h.next)
    (hpop : settings_pop h sref name dflt = some (h2, v)) :
    HExt base h2 ∧ h2.next = h.next ∧
    (v = dflt ∨ ∀ rr, v = HVal.ref rr → base.next ≤ rr ∧ rr < h.next) := by
  unfold settings_pop at hpop
  cases hg : hget h sref with
  | none => rw [hg] at hpop; cases hpop
  | some d =>
    rw [hg] at hpop
    dsimp only at hpop
    rcases hdp : dict_pop d.entries name with ⟨popv, es⟩
    rw [hdp] at hpop
    cases popv with
    | none => cases hpop
    | some v0 =>
      dsimp only at hpop
      have hdrefs := hext.2.2.2 sref d hg hr1
      have hes : ∀ kv ∈ (⟨es⟩ : PyDict).entries, ∀ rr, kv.2 = HVal.ref rr →
          base.next ≤ rr ∧ rr < h.next := by
        intro kv hkv rr hrr
        have hmem := dict_pop_mem_of d.entries name kv
        rw [hdp] at hmem
        exact hdrefs kv (hmem hkv) rr hrr
      have hext2 : HExt base (hset h sref ⟨es⟩) :=
        HExt_hset base h sref ⟨es⟩ hext hr1 hr2 hes
      have hv0 : ∀ rr, v0 = HVal.ref rr → base.next ≤ rr ∧ rr < h.next := by
        intro rr hrr
        have hfst : (dict_pop d.entries name).1 = some v0 := by rw [hdp]
        obtain ⟨k0, hk0⟩ := dict_pop_fst_mem d.entries name v0 hfst
        exact hdrefs (k0, v0) hk0 rr hrr
      cases hpop
      refine ⟨hext2, rfl, ?_⟩
      by_cases hf : hval_falsy (hset h sref ⟨es⟩) v0 = true
      · left; rw [if_pos hf]
      · right
        rw [if_neg hf]
        exact hv0


/-- Helper: the closing step of the settings phase rewrites only the
options dictionary, which lives in the fresh region. -/
theorem connect_lower_step_frame (base h12 : Heap) (optRef opRef sref : Nat)
    (db_name host port user password : HVal) (h2 : Heap) (args : ConnectArgs)
    (e12 : HExt base h12) (ho1 : base.next ≤ optRef)
    (hstep : connect_lower_step h12 optRef opRef sref db_name host port user password =
      some (h2, args)) :
    HExt base h2 := by
  unfold connect_lower_step at hstep
  cases hgod2 : hget h12 optRef with
  | none => rw [hgod2] at hstep; exact Option.noConfusion hstep
  | some od2 =>
  rw [hgod2] at hstep
  dsimp only at hstep
  have hodrefs := e12.2.2.2 optRef od2 hgod2 ho1
  have ho2 : optRef < h12.next := by
    by_contra hge
    have := e12.2.2.1 optRef (by omega)
    rw [this] at hgod2
    cases hgod2
  have e13 : HExt base (hset h12 optRef ⟨lower_case_options od2.entries⟩) := by
    apply HExt_hset base h12 optRef _ e12 ho1 ho2
    intro kv hkv rr hrr
    exact lower_case_options_vals
      (fun hv => ∀ rr2, hv = HVal.ref rr2 → base.next ≤ rr2 ∧ rr2 < h12.next)
      od2.entries (fun kv2 hkv2 => hodrefs kv2 hkv2) kv hkv rr hrr
  cases hstep
  exact e13

/-- Helper: the flags broadcast allocates at most one fresh dictionary
referencing the flags object; together with the closing step the heap
extension is preserved. -/
theorem connect_flags_and_lower_frame (base h10 : Heap) (optRef flagsRef sref : Nat)
    (db_name host port user password : HVal) (h2 : Heap) (args : ConnectArgs)
    (e10 : HExt base h10) (ho1 : base.next ≤ optRef)
    (hf1 : base.next ≤ flagsRef) (hf2 : flagsRef < h10.next)
    (hphase : connect_flags_and_lower h10 optRef flagsRef sref
      db_name host port user password = some (h2, args)) :
    HExt base h2 := by
  unfold connect_flags_and_lower at hphase
  cases hgfd : hget h10 flagsRef with
  | none => rw [hgfd] at hphase; exact Option.noConfusion hphase
  | some fd =>
  rw [hgfd] at hphase
  dsimp only at hphase
  by_cases hany : fd.entries.any (fun kv => is_operation_key kv.1) = true
  · rw [if_pos hany] at hphase
    dsimp only at hphase
    exact connect_lower_step_frame base h10 optRef flagsRef sref
      db_name host port user password h2 args e10 ho1 hphase
  · rw [if_neg hany] at hphase
    rcases hal3 : halloc h10 ⟨[("save", HVal.ref flagsRef), ("delete", HVal.ref flagsRef),
        ("update", HVal.ref flagsRef)]⟩ with ⟨opRef, h12⟩
    rw [hal3] at hphase
    dsimp only at hphase
    have h12eq : h12 = (halloc h10 ⟨[("save", HVal.ref flagsRef), ("delete", HVal.ref flagsRef),
        ("update", HVal.ref flagsRef)]⟩).2 := (congrArg Prod.snd hal3).symm
    have e12 : HExt base h12 := by
      rw [h12eq]
      apply HExt_halloc base h10 _ e10
      intro kv hkv rr hrr
      simp only [List.mem_cons, List.not_mem_nil, or_false] at hkv
      rcases hkv with rfl | rfl | rfl <;>
      · cases hrr
        exact ⟨hf1, hf2⟩
    exact connect_lower_step_frame base h12 optRef opRef sref
      db_name host port user password h2 args e12 ho1 hphase

/-- Helper: the settings phase of _connect only extends the heap above
the original next pointer: the deep copy allocates fresh objects, and
all later pops, writes and allocations hit only the fresh region. -/
theorem connect_settings_phase_frame (fuel : Nat) (h : Heap) (sd : Nat)
    (h2 : Heap) (args : ConnectArgs) (hdom : domBound h)
    (hphase : connect_settings_phase fuel h sd = some (h2, args)) :
    HExt h h2 := by
  unfold connect_settings_phase at hphase
  cases hdc : deepcopyRef fuel h sd with
  | none => rw [hdc] at hphase; exact Option.noConfusion hphase
  | some p1 =>
  obtain ⟨hA, sref⟩ := p1
  rw [hdc] at hphase
  simp only [Option.bind_eq_bind, Option.some_bind] at hphase
  obtain ⟨eA, hsref1, hsref2⟩ := (deepcopy_spec fuel).1 h sd hA sref hdom hdc
  cases hp1 : settings_pop hA sref "NAME" (.scalar .pynone) with
  | none => rw [hp1] at hphase; exact Option.noConfusion hphase
  | some p2 =>
  obtain ⟨hB, db_name⟩ := p2
  rw [hp1] at hphase
  simp only [Option.some_bind] at hphase
  obtain ⟨eB, nB, _⟩ :=
    settings_pop_frame h hA sref "NAME" (.scalar .pynone) hB db_name eA hsref1 hsref2 hp1
  have hsrefB : sref < hB.next := by omega
  cases hp2 : settings_pop hB sref "HOST" (.scalar .pynone) with
  | none => rw [hp2] at hphase; exact Option.noConfusion hphase
  | some p3 =>
  obtain ⟨hC, host⟩ := p3
  rw [hp2] at hphase
  simp only [Option.some_bind] at hphase
  obtain ⟨eC, nC, _⟩ :=
    settings_pop_frame h hB sref "HOST" (.scalar .pynone) hC host eB hsref1 hsrefB hp2
  have hsrefC : sref < hC.next := by omega
  cases hp3 : settings_pop hC sref "PORT" (.scalar .pynone) with
  | none => rw [hp3] at hphase; exact Option.noConfusion hphase
  | some p4 =>
  obtain ⟨hD, port⟩ := p4
  rw [hp3] at hphase
  simp only [Option.some_bind] at hphase
  obtain ⟨eD, nD, _⟩ :=
    settings_pop_frame h hC sref "PORT" (.scalar .pynone) hD port eC hsref1 hsrefC hp3
  have hsrefD : sref < hD.next := by omega
  cases hp4 : settings_pop hD sref "USER" (.scalar .pynone) with
  | none => rw [hp4] at hphase; exact Option.noConfusion hphase
  | some p5 =>
  obtain ⟨hE, user⟩ := p5
  rw [hp4] at hphase
  simp only [Option.some_bind] at hphase
  obtain ⟨eE, nE, _⟩ :=
    settings_pop_frame h hD sref "USER" (.scalar .pynone) hE user eD hsref1 hsrefD hp4
  have hsrefE : sref < hE.next := by omega
  cases hp5 : settings_pop hE sref "PASSWORD" (.scalar .pynone) with
  | none => rw [hp5] at hphase; exact Option.noConfusion hphase
  | some p6 =>
  obtain ⟨hF, password⟩ := p6
  rw [hp5] at hphase
  simp only [Option.some_bind] at hphase
  obtain ⟨eF, nF, _⟩ :=
    settings_pop_frame h hE sref "PASSWORD" (.scalar .pynone) hF password eE hsref1 hsrefE hp5
  have hsrefF : sref < hF.next := by omega
  rcases hal : halloc hF ⟨[]⟩ with ⟨dref, hG⟩
  rw [hal] at hphase
  dsimp only at hphase
  have hdref : dref = hF.next := by
    have := congrArg Prod.fst hal
    simpa [halloc] using this.symm
  have hGeq : hG = (halloc hF ⟨[]⟩).2 := (congrArg Prod.snd hal).symm
  have eG : HExt h hG := by
    rw [hGeq]
    exact HExt_halloc h hF ⟨[]⟩ eF (by intro kv hkv; cases hkv)
  have nG : hG.next = hF.next + 1 := by rw [hGeq]; rfl
  have hsrefG : sref < hG.next := by omega
  cases hp6 : settings_pop hG sref "OPTIONS" (.ref dref) with
  | none => rw [hp6] at hphase; exact Option.noConfusion hphase
  | some p7 =>
  obtain ⟨hH, optv⟩ := p7
  rw [hp6] at hphase
  simp only [Option.some_bind] at hphase
  obtain ⟨eH, nH, hoptv⟩ :=
    settings_pop_frame h hG sref "OPTIONS" (.ref dref) hH optv eG hsref1 hsrefG hp6
  cases optv with
  | scalar _ => exact Option.noConfusion hphase
  | ref optRef =>
  dsimp only at hphase
  have hopt1 : h.next ≤ optRef ∧ optRef < hG.next := by
    rcases hoptv with hdf | hbd
    · have heq : optRef = dref := by cases hdf; rfl
      subst heq
      have := eF.1
      omega
    · exact hbd optRef rfl
  cases hgod : hget hH optRef with
  | none => rw [hgod] at hphase; exact Option.noConfusion hphase
  | some od =>
  rw [hgod] at hphase
  dsimp only at hphase
  have hodrefs := eH.2.2.2 optRef od hgod hopt1.1
  rcases hal2 : halloc hH ⟨[]⟩ with ⟨eref, h9⟩
  rw [hal2] at hphase
  dsimp only at hphase
  have heref : eref = hH.next := by
    have := congrArg Prod.fst hal2
    simpa [halloc] using this.symm
  have h9eq : h9 = (halloc hH ⟨[]⟩).2 := (congrArg Prod.snd hal2).symm
  have e9 : HExt h h9 := by
    rw [h9eq]
    exact HExt_halloc h hH ⟨[]⟩ eH (by intro kv hkv; cases hkv)
  have n9 : h9.next = hH.next + 1 := by rw [h9eq]; rfl
  rcases hdp : dict_pop od.entries "OPERATIONS" with ⟨popv, es2⟩
  rw [hdp] at hphase
  dsimp only at hphase
  have hes2 : ∀ kv ∈ es2, ∀ rr, kv.2 = HVal.ref rr → h.next ≤ rr ∧ rr < hH.next := by
    intro kv hkv rr hrr
    have hmem := dict_pop_mem_of od.entries "OPERATIONS" kv
    rw [hdp] at hmem
    exact hodrefs kv (hmem hkv) rr hrr
  have e10 : HExt h (hset h9 optRef ⟨es2⟩) := by
    apply HExt_hset h h9 optRef ⟨es2⟩ e9 hopt1.1 (by omega)
    intro kv hkv rr hrr
    have := hes2 kv hkv rr hrr
    omega
  have n10 : (hset h9 optRef ⟨es2⟩).next = h9.next := rfl
  cases popv with
  | some fv =>
    dsimp only at hphase
    cases fv with
    | scalar _ => exact Option.noConfusion hphase
    | ref flagsRef =>
      have hfb : h.next ≤ flagsRef ∧ flagsRef < hH.next := by
        have hfst : (dict_pop od.entries "OPERATIONS").1 = some (HVal.ref flagsRef) := by
          rw [hdp]
        obtain ⟨k0, hk0⟩ := dict_pop_fst_mem od.entries "OPERATIONS" (HVal.ref flagsRef) hfst
        exact hodrefs (k0, HVal.ref flagsRef) hk0 flagsRef rfl
      exact connect_flags_and_lower_frame h (hset h9 optRef ⟨es2⟩) optRef flagsRef sref
        db_name host port user password h2 args e10 hopt1.1 hfb.1 (by omega) hphase
  | none =>
    dsimp only at hphase
    exact connect_flags_and_lower_frame h (hset h9 optRef ⟨es2⟩) optRef eref sref
      db_name host port user password h2 args e10 hopt1.1 (by omega) (by omega) hphase

/-- Helper: the observable readout only depends on the heap below n
when the graph is bounded by n: two heaps agreeing below n give the
same readout of any reference below n. -/
theorem readout_agree : ∀ fuelR : Nat, ∀ h hX : Heap, ∀ n : Nat,
    (∀ q, q < n → hget hX q = hget h q) →
    (∀ q d, hget h q = some d → ∀ kv ∈ d.entries, HValBound n kv.2 = true) →
    (∀ r, r < n → readoutRef fuelR hX r = readoutRef fuelR h r) ∧
    (∀ es, (∀ kv ∈ es, HValBound n kv.2 = true) →
      readoutEntries fuelR hX es = readoutEntries fuelR h es) ∧
    (∀ v, HValBound n v = true → readoutVal fuelR hX v = readoutVal fuelR h v) := by
  intro fuelR
  induction fuelR with
  | zero =>
    intro h hX n hag hcb
    exact ⟨fun r hr => rfl, fun es hes => rfl, fun v hv => rfl⟩
  | succ f ih =>
    intro h hX n hag hcb
    obtain ⟨ihR, ihE, ihV⟩ := ih h hX n hag hcb
    refine ⟨?_, ?_, ?_⟩
    · intro r hr
      show readoutRef (f + 1) hX r = readoutRef (f + 1) h r
      unfold readoutRef
      rw [hag r hr]
      cases hg : hget h r with
      | none => rfl
      | some d =>
        dsimp only
        exact ihE d.entries (hcb r d hg)
    · intro es hes
      cases es with
      | nil => rfl
      | cons e rest =>
        obtain ⟨k, v⟩ := e
        unfold readoutEntries
        rw [ihV v (hes (k, v) (List.mem_cons_self _ _))]
        cases hv : readoutVal f h v with
        | none => rfl
        | some pv =>
          dsimp only
          rw [ihE rest (fun kv hkv => hes kv (List.mem_cons_of_mem _ hkv))]
    · intro v hv
      cases v with
      | scalar pv => rfl
      | ref r =>
        unfold readoutVal
        have hr : r < n := by
          have : decide (r < n) = true := hv
          exact of_decide_eq_true this
        rw [ihR r hr]

/-- Helper: the sample settings heap is well formed. -/
theorem sample_settings_heap_closed : Heap.closed sample_settings_heap := by
  constructor
  · intro q hq
    have hq3 : 3 ≤ q := hq
    have h0 : ¬ q = 0 := by omega
    have h1 : ¬ q = 1 := by omega
    have h2 : ¬ q = 2 := by omega
    simp [hget, sample_settings_heap, h0, h1, h2]
  · intro q d hq
    unfold hget sample_settings_heap at hq
    dsimp only at hq
    split_ifs at hq with h0 h1 h2
    · cases hq; decide
    · cases hq; decide
    · cases hq; decide

/-- C10: the connect sequence operates on a deep copy of the wrapper
settings record: on every successful run of the settings phase of
_connect, the observable settings dictionary (the full graph reachable
from it, nested OPTIONS and OPERATIONS included) reads back identically
before and after, so repeated connects start from the same raw
configuration.  The mutations of _connect (the six pops, the OPERATIONS
pop, the broadcast allocation, the in-place key lowering) all hit the
fresh copy region only. -/
theorem c10_connect_preserves_settings (fuel fuelR : Nat) (h : Heap) (sd : Nat)
    (h2 : Heap) (args : ConnectArgs) (hcl : Heap.closed h) (hsd : sd < h.next)
    (hphase : connect_settings_phase fuel h sd = some (h2, args)) :
    readoutRef fuelR h2 sd = readoutRef fuelR h sd := by
  have hext := connect_settings_phase_frame fuel h sd h2 args hcl.1 hphase
  exact (readout_agree fuelR h h2 h.next hext.2.1 hcl.2).1 sd hsd

/-- Witness for C10 on the sample settings heap: running the settings
phase leaves the observable settings dictionary identical. -/
theorem c10_connect_preserves_settings_witness :
    readoutRef 64 sample_connect_output.1 0 = readoutRef 64 sample_settings_heap 0 :=
  c10_connect_preserves_settings 64 64 sample_settings_heap 0
    sample_connect_output.1 sample_connect_output.2 sample_settings_heap_closed
    (by decide) rfl
